import Mathlib

/-!
Verification of the publish-target resolution and streaming ingestion
pipeline of the livekit-mc CLI (`cmd/livekit-cli`).  Go strings are
modelled as `List Char` (all the delimiters and keys involved are ASCII,
so byte indexing and character indexing agree), Go's `float64` frame rate
as `ℚ` (every finite float value is a rational, and the only operations
the source performs on it are an equality test with `0` and a truncating
conversion to `int64`, both of which are exact on the rational value),
and external collaborators (socket dialing, the SDK's track construction,
publish and data-send calls) as an explicit environment of oracles.
-/

/-- Go strings, modelled as lists of characters. -/
abbrev Str := List Char

/-- Source constant `mimeDelimiter = "://"`. -/
def mimeDelimiter : Str := ("://".toList)

/-- Source constant `MimeTypeDataByte = "data/byte"`. -/
def MimeTypeDataByte : Str := ("data/byte".toList)

/-- Constant `webrtc.MimeTypeH264` from the pion/webrtc dependency. -/
def MimeTypeH264 : Str := ("video/H264".toList)

/-- Constant `webrtc.MimeTypeVP8` from the pion/webrtc dependency. -/
def MimeTypeVP8 : Str := ("video/VP8".toList)

/-- Constant `webrtc.MimeTypeOpus` from the pion/webrtc dependency. -/
def MimeTypeOpus : Str := ("audio/opus".toList)

/-- Go `strings.Index(s, sub)`: position of the first occurrence of `sub`
in `s`, `none` standing for Go's `-1`. -/
def indexOfSub (sub : Str) : Str → Option Nat
  | [] => if sub = [] then some 0 else none
  | c :: rest =>
    if sub.isPrefixOf (c :: rest) then some 0
    else (indexOfSub sub rest).map (· + 1)

/-- Go `strings.Contains(s, sub)`, i.e. `strings.Index(s, sub) >= 0`. -/
def containsSub (sub s : Str) : Bool :=
  (indexOfSub sub s).isSome

/-- The Go `error` values produced or returned by the pipeline.  Each
constructor stands for one `error` construction site in the source (or
for an opaque error value handed back by an external collaborator). -/
inductive GoError
  /-- parseSocketFromName: did not find delimiter `://` in `name`. -/
  | noDelimiter (name : Str)
  /-- parseSocketFromName: unsupported mime type. -/
  | invalidMime (mimeType : Str)
  /-- parseSocketFromName: address cannot be empty. -/
  | emptyAddress (name : Str)
  /-- publishSocket: `lksdk.ErrUnsupportedFileType` (default switch case). -/
  | unsupportedFileType
  /-- publishReader data loop: error value built by
  `fmt.Errorf("finished writing %s stream", mime)` on the EXIT sentinel. -/
  | streamFinished (mime : Str)
  /-- An error returned by a read from the source (`ReadFrom`). -/
  | readError (msg : Str)
  /-- An error returned by an external collaborator call
  (dial / track construction / publish / send-data). -/
  | external (msg : Str)
deriving DecidableEq

deriving instance DecidableEq for Except

/-- Model of `parseSocketFromName` (part_000 lines 320-348): split the
specifier at the first `://`, validate the mime key, validate that the
address is non-empty, and derive the socket type from the presence of
`:` in the address.  Returns `(mimeType, socketType, address)`. -/
def parseSocketFromName (name : Str) : Except GoError (Str × Str × Str) :=
  match indexOfSub mimeDelimiter name with
  | none => .error (.noDelimiter name)
  | some offset =>
    let mimeType := name.take offset
    if mimeType ≠ ("data".toList) ∧ mimeType ≠ ("h264".toList) ∧
        mimeType ≠ ("vp8".toList) ∧ mimeType ≠ ("opus".toList) then
      .error (.invalidMime mimeType)
    else
      let address := name.drop (offset + mimeDelimiter.length)
      if address = [] then .error (.emptyAddress name)
      else if containsSub (":".toList) address = false then
        .ok (mimeType, ("unix".toList), address)
      else
        .ok (mimeType, ("tcp".toList), address)

/-- Model of `isSocketFormat` (part_000 lines 350-352). -/
def isSocketFormat (name : Str) : Bool :=
  containsSub mimeDelimiter name

/-- Model of the mime-type dispatch switch at the top of `publishSocket`
(part_000 lines 354-367): `strings.Contains` tests in source order, the
default case returning `lksdk.ErrUnsupportedFileType`. -/
def resolveMime (mimeType : Str) : Except GoError Str :=
  if containsSub ("data".toList) mimeType then .ok MimeTypeDataByte
  else if containsSub ("h264".toList) mimeType then .ok MimeTypeH264
  else if containsSub ("vp8".toList) mimeType then .ok MimeTypeVP8
  else if containsSub ("opus".toList) mimeType then .ok MimeTypeOpus
  else .error .unsupportedFileType

/-- Result of the frame-duration block shared by `publishFile` (lines
300-307) and `publishReader` (lines 392-399): either the option list is
left without a frame duration, or `time.Second / time.Duration(fps)` is
appended, or that integer division panics because `time.Duration(fps)`
(the rate truncated towards zero) is `0` while `fps != 0`. -/
inductive FrameDurationResult
  /-- No `ReaderTrackWithFrameDuration` option is appended. -/
  | noDuration
  /-- `ReaderTrackWithFrameDuration` is appended with this many nanoseconds. -/
  | duration (ns : Int)
  /-- Go runtime panic: integer division by zero in
  `time.Second / time.Duration(fps)`. -/
  | panicked
deriving DecidableEq

/-- Go's `time.Duration(fps)` for a `float64` rate: conversion of a float
to `int64` discards the fractional part (truncation towards zero), which
on the rational value denoted by the float is `num.tdiv den`. -/
def durationOfRate (fps : ℚ) : Int :=
  fps.num.tdiv (fps.den : Int)

/-- The inner body of the frame-pacing blocks: `if fps != 0 {
frameDuration := time.Second / time.Duration(fps); opts = append(...) }`.
`time.Second` is `10^9` nanoseconds and `/` on `time.Duration` is Go's
truncating `int64` division (`Int.tdiv`), which panics on a zero divisor. -/
def computeFrameDuration (fps : ℚ) : FrameDurationResult :=
  if fps = 0 then .noDuration
  else
    let d := durationOfRate fps
    if d = 0 then .panicked
    else .duration ((1000000000 : Int).tdiv d)

/-- Go `filepath.Ext`, scanning the path backwards: the suffix starting
at the last `.` in the last path element, empty if none.  Walks the
reversed path, stopping at `/` (the path separator) or at the first `.`
found. -/
def fileExtLoop : Str → Str → Str
  | [], _ => []
  | c :: rest, acc =>
    if c = '/' then []
    else if c = '.' then '.' :: acc
    else fileExtLoop rest (c :: acc)

/-- Go `filepath.Ext(path)` (unix path separator). -/
def fileExt (path : Str) : Str :=
  fileExtLoop path.reverse []

/-- ASCII lower-casing of one character, as performed by
`strings.EqualFold` on ASCII input. -/
def asciiLower (c : Char) : Char :=
  if 'A' ≤ c ∧ c ≤ 'Z' then Char.ofNat (c.toNat + 32) else c

/-- Go `strings.EqualFold` restricted to ASCII strings (all mime-type
constants compared in the source are ASCII): case-insensitive equality. -/
def equalFold (a b : Str) : Bool :=
  a.map asciiLower = b.map asciiLower

/-- The frame-pacing block of `publishFile` (part_000 lines 300-307):
the frame duration is considered only when the file extension is
`.h264` or `.ivf`. -/
def publishFileFrameDuration (filename : Str) (fps : ℚ) : FrameDurationResult :=
  if fileExt filename = (".h264".toList) ∨ fileExt filename = (".ivf".toList) then
    computeFrameDuration fps
  else .noDuration

/-- The frame-pacing block of `publishReader` (part_000 lines 392-399):
the frame duration is considered only when the mime type equal-folds to
`video/VP8` or `video/H264`. -/
def publishReaderFrameDuration (mime : Str) (fps : ℚ) : FrameDurationResult :=
  if equalFold mime MimeTypeVP8 ∨ equalFold mime MimeTypeH264 then
    computeFrameDuration fps
  else .noDuration

/-- How an `io.Reader` ends: end-of-stream, or a read error. -/
inductive Terminal
  /-- The reader signals `io.EOF`; every later read also returns `io.EOF`
  with zero bytes. -/
  | eof
  /-- The reader returns this (non-EOF) error. -/
  | err (e : GoError)
deriving DecidableEq

/-- A byte source (socket connection or file) as seen through successive
`Read` calls: a finite list of non-empty chunks delivered in order,
followed by the terminal signal. -/
structure Source where
  chunks : List Str
  terminal : Terminal
deriving DecidableEq

/-- Go `bytes.Buffer.ReadFrom(in)` semantics: it calls `in.Read`
repeatedly and appends, returning only when the reader signals `io.EOF`
(success, `nil` error) or some other error (returned as is).  One call
therefore drains every remaining chunk of the source and returns their
concatenation, never a single chunk.  Result: accumulated bytes, the
returned error (if any), and the remaining source. -/
def readFrom (s : Source) : Str × Option GoError × Source :=
  match s.terminal with
  | .eof => (s.chunks.flatten, none, ⟨[], .eof⟩)
  | .err e => (s.chunks.flatten, some e, ⟨[], .err e⟩)

/-- Outcome of running the data streaming loop for a given amount of
fuel (loop iterations).  `sent` is the list of payloads forwarded so far
via `PublishData` in order. -/
inductive LoopOutcome
  /-- The loop body executed `return err`: the Go function returns this
  non-nil error value.  (In the data branch of `publishReader` every exit
  from the `for` loop is such a `return err`; the `return nil` after the
  loop is unreachable.) -/
  | stopped (e : GoError) (sent : List Str)
  /-- Fuel ran out while the loop was still iterating: the loop had not
  terminated after that many iterations. -/
  | running (src : Source) (sent : List Str)
deriving DecidableEq

/-- Messages forwarded by the loop up to its outcome. -/
def LoopOutcome.sentMessages : LoopOutcome → List Str
  | .stopped _ sent => sent
  | .running _ sent => sent

/-- Model of the data streaming loop in `publishReader` (part_000 lines
411-434), the branch taken when `mime == MimeTypeDataByte`.  Each
iteration: `data.ReadFrom(in)` (see `readFrom`); a non-nil read error is
returned as is; if at least one byte was read, a buffer equal to `EXIT`
makes the loop return the `streamFinished` error, otherwise the buffer
is forwarded via `PublishData` (reliable), whose error, if any, is
returned as is; then a fixed 10 ms sleep (not modelled: timing does not
affect the values computed) and the next iteration.  `send` is the
oracle for `PublishData`. -/
def dataStreamLoop (mime : Str) (send : Str → Option GoError) :
    Nat → Source → List Str → LoopOutcome
  | 0, src, sent => .running src sent
  | Nat.succ n, src, sent =>
    let r := readFrom src
    match r.2.1 with
    | some e => .stopped e sent
    | none =>
      if r.1.length > 0 then
        if r.1 = ("EXIT".toList) then .stopped (.streamFinished mime) sent
        else
          match send r.1 with
          | some e => .stopped e sent
          | none => dataStreamLoop mime send n r.2.2 (sent ++ [r.1])
      else dataStreamLoop mime send n r.2.2 sent

/-- A `PublishData` oracle that always succeeds. -/
def sendOk : Str → Option GoError := fun _ => none

/-- Model of the completion closure registered through
`ReaderTrackWithOnWriteComplete` in `publishReader` (lines 384-389) and
`publishFile` (lines 292-297): it prints a message and, only if the
captured variable `pub` is non-nil, attempts one
`UnpublishTrack(pub.SID())`.  The argument is the value of `pub` at the
moment the callback fires; the result is the list of SIDs for which an
unpublish is attempted during this invocation. -/
def onWriteComplete (pub : Option Str) : List Str :=
  match pub with
  | none => []
  | some sid => [sid]

/-- Behaviour of the external collaborators (the connected room session,
the LiveKit SDK and the network), supplied as oracles: the outcome of
`net.Dial`, `lksdk.NewLocalReaderTrack`, `lksdk.NewLocalFileTrack`,
`PublishTrack` and `PublishData`. -/
structure Env where
  dial : Str → Str → Except GoError Source
  newReaderTrack : Str → Except GoError Unit
  newFileTrack : Str → Except GoError Unit
  publishTrack : Except GoError Unit
  send : Str → Option GoError

/-- An environment in which every external call succeeds and every
dialed socket is already at end-of-stream. -/
def envOk : Env :=
  ⟨fun _ _ => .ok ⟨[], .eof⟩, fun _ => .ok (), fun _ => .ok (), .ok (), sendOk⟩

/-- Result of running one publish operation to completion: the Go
function returned (`done`, with its `error` result), or the data loop
was still iterating when the fuel ran out (`diverged`), or a runtime
panic occurred (division by zero in the frame-duration computation). -/
inductive RunResult
  | done (r : Except GoError Unit)
  | diverged
  | panicked
deriving DecidableEq

/-- Model of `publishReader` (part_000 lines 380-436): completion hook
and options set up (effect modelled by `onWriteComplete`), frame pacing
computed for video mimes, then either the track publish path (non-data
mime: `NewLocalReaderTrack` then `PublishTrack`, returning the first
error, else falling through to `return nil`) or the data streaming loop
(`dataStreamLoop`), which can only exit by returning an error. -/
def publishReaderRun (env : Env) (fuel : Nat) (src : Source) (mime : Str)
    (fps : ℚ) : RunResult :=
  if publishReaderFrameDuration mime fps = .panicked then .panicked
  else if mime ≠ MimeTypeDataByte then
    match env.newReaderTrack mime with
    | .error e => .done (.error e)
    | .ok _ =>
      match env.publishTrack with
      | .error e => .done (.error e)
      | .ok _ => .done (.ok ())
  else
    match dataStreamLoop mime env.send fuel src [] with
    | .stopped e _ => .done (.error e)
    | .running _ _ => .diverged

/-- Model of `publishFile` (part_000 lines 288-318): completion hook and
options, frame pacing by file extension, `NewLocalFileTrack`, then
`PublishTrack`, whose error (nil or not) is returned. -/
def publishFileRun (env : Env) (filename : Str) (fps : ℚ) : RunResult :=
  if publishFileFrameDuration filename fps = .panicked then .panicked
  else
    match env.newFileTrack filename with
    | .error e => .done (.error e)
    | .ok _ =>
      match env.publishTrack with
      | .error e => .done (.error e)
      | .ok _ => .done (.ok ())

/-- Model of `publishSocket` (part_000 lines 354-378): resolve the mime
type, dial the socket, then `publishReader`. -/
def publishSocketRun (env : Env) (fuel : Nat) (mimeKey socketType address : Str)
    (fps : ℚ) : RunResult :=
  match resolveMime mimeKey with
  | .error e => .done (.error e)
  | .ok mime =>
    match env.dial socketType address with
    | .error e => .done (.error e)
    | .ok src => publishReaderRun env fuel src mime fps

/-- Model of `handlePublish` (part_000 lines 249-260): socket-format
specifiers are parsed and published via `publishSocket`, everything else
is treated as a file name and published via `publishFile`. -/
def handlePublishRun (env : Env) (fuel : Nat) (name : Str) (fps : ℚ) : RunResult :=
  if isSocketFormat name then
    match parseSocketFromName name with
    | .error e => .done (.error e)
    | .ok (m, st, addr) => publishSocketRun env fuel m st addr fps
  else publishFileRun env name fps

/-- Model of the publish loop in `joinRoom` (part_000 lines 236-243):
`for _, pub := range publish { if err = handlePublish(room, pub, fps);
err != nil { return err } }`.  Returns the loop's result together with
the list of specifiers for which `handlePublish` was actually invoked
(a diverging or panicking `handlePublish` call never returns, so later
specifiers are not reached either). -/
def joinRoomPublishRun (env : Env) (fuel : Nat) (fps : ℚ) :
    List Str → RunResult × List Str
  | [] => (.done (.ok ()), [])
  | s :: rest =>
    match handlePublishRun env fuel s fps with
    | .done (.ok _) =>
      let p := joinRoomPublishRun env fuel fps rest
      (p.1, s :: p.2)
    | .done (.error e) => (.done (.error e), [s])
    | .diverged => (.diverged, [s])
    | .panicked => (.panicked, [s])

/-- The concrete data source of the C1 scenario: successive reads
deliver `hello`, `EXIT`, `world`, then end-of-stream. -/
def helloExitWorldSource : Source :=
  ⟨[("hello".toList), ("EXIT".toList), ("world".toList)], .eof⟩

/-- Definition following the spec's words for C5, for comparison with
`computeFrameDuration`: the duration `1/rate` converted to the
implementation's time unit (nanoseconds), i.e. `10^9 / rate` ns. -/
def specFrameDurationNs (rate : ℚ) : ℚ :=
  1000000000 / rate

/-- Once the source is exhausted (all chunks consumed, terminal EOF),
every further `ReadFrom` returns zero bytes with a nil error, so the
loop keeps iterating for ever: whatever the remaining fuel, it is still
`running` with an unchanged state. -/
theorem dataStreamLoop_emptyEof (mime : Str) (send : Str → Option GoError)
    (n : Nat) (sent : List Str) :
    dataStreamLoop mime send n ⟨[], .eof⟩ sent = .running ⟨[], .eof⟩ sent := by
  induction n with
  | zero => rfl
  | succ n ih => exact ih

/-- The loop never appends a message equal to `EXIT` to its forwarded
list: a buffer equal to the sentinel makes it return instead of
forwarding. -/
theorem dataStreamLoop_no_exit_message (mime : Str) (send : Str → Option GoError)
    (n : Nat) (src : Source) (sent : List Str)
    (h : ("EXIT".toList) ∉ sent) :
    ("EXIT".toList) ∉ (dataStreamLoop mime send n src sent).sentMessages := by
  induction n generalizing src sent with
  | zero => exact h
  | succ n ih =>
    show ("EXIT".toList) ∉
      (dataStreamLoop mime send (n+1) src sent).sentMessages
    rw [dataStreamLoop]
    rcases hterm : (readFrom src).2.1 with _ | e
    · by_cases hlen : (readFrom src).1.length > 0
      · by_cases hexit : (readFrom src).1 = ("EXIT".toList)
        · simp only [hlen, hexit, if_pos, if_true]
          simpa [LoopOutcome.sentMessages] using h
        · rcases hsend : send (readFrom src).1 with _ | e
          · simp only [hlen, hexit, hsend, if_pos, if_true, if_neg, if_false]
            apply ih
            intro hmem
            rcases List.mem_append.mp hmem with hmem | hmem
            · exact h hmem
            · exact hexit (List.mem_singleton.mp hmem).symm
          · simp only [hlen, hexit, hsend, if_pos, if_true, if_neg, if_false]
            simpa [LoopOutcome.sentMessages] using h
      · simp only [hlen, if_neg, if_false]
        exact ih _ _ h
    · simpa [LoopOutcome.sentMessages] using h

/-- C1, counterexample: with successive reads `hello`, `EXIT`, `world`
then EOF, the single `bytes.Buffer.ReadFrom` call of the first iteration
drains the whole source, so the loop forwards one reliable message whose
payload is the concatenation `helloEXITworld` — not `hello` — and after
five iterations it is still running (it did not terminate). -/
theorem c1_counterexample :
    dataStreamLoop MimeTypeDataByte sendOk 5 helloExitWorldSource [] =
      .running ⟨[], .eof⟩ [("helloEXITworld".toList)] ∧
    (dataStreamLoop MimeTypeDataByte sendOk 5 helloExitWorldSource
      []).sentMessages ≠ [("hello".toList)] := by
  decide

/-- C1, amended: for the source with successive reads `hello`, `EXIT`,
`world` then EOF, the data streaming loop forwards exactly one reliable
message, whose payload is `helloEXITworld` (one `ReadFrom` drains the
source to EOF, so the `EXIT` chunk neither terminates the loop nor is it
checked in isolation), and the loop never terminates: for every fuel it
is still running with that single forwarded message. -/
theorem c1_amended (n : Nat) :
    dataStreamLoop MimeTypeDataByte sendOk (n + 1) helloExitWorldSource [] =
      .running ⟨[], .eof⟩ [("helloEXITworld".toList)] := by
  have h1 : dataStreamLoop MimeTypeDataByte sendOk (n + 1) helloExitWorldSource [] =
      dataStreamLoop MimeTypeDataByte sendOk n ⟨[], .eof⟩
        [("helloEXITworld".toList)] := rfl
  rw [h1]
  exact dataStreamLoop_emptyEof MimeTypeDataByte sendOk n _

/-- C3, counterexample: if the completion hook fires before the publish
call has assigned the publication handle, the captured `pub` variable is
still nil, so the hook attempts zero unpublishes, not one. -/
theorem c3_counterexample :
    onWriteComplete none = [] ∧ (onWriteComplete none).length ≠ 1 := by
  decide

/-- C3, amended: one invocation of the completion hook attempts exactly
one unpublish when the publication handle has already been assigned, but
zero when it fires before the publish call has assigned the handle (the
nil guard skips the unpublish instead of deferring it); in every case it
attempts at most one. -/
theorem c3_amended :
    (∀ sid : Str, (onWriteComplete (some sid)).length = 1) ∧
    (onWriteComplete none).length = 0 ∧
    (∀ pub : Option Str, (onWriteComplete pub).length ≤ 1) := by
  refine ⟨fun sid => rfl, rfl, fun pub => ?_⟩
  cases pub <;> simp [onWriteComplete]

/-- C4, counterexample: after the source has ended (EOF consumed in the
first iteration) the loop is still iterating at fuel 3 — it does not
stop; and a read error makes the loop return that error as the function
result (a user-facing failure), not an informational completion. -/
theorem c4_counterexample :
    dataStreamLoop MimeTypeDataByte sendOk 3 ⟨[("x".toList)], .eof⟩ [] =
      .running ⟨[], .eof⟩ [("x".toList)] ∧
    dataStreamLoop MimeTypeDataByte sendOk 1
      ⟨[], .err (.readError ("boom".toList))⟩ [] =
      .stopped (.readError ("boom".toList)) [] := by
  decide

/-- C4, amended: when a read returns a non-EOF error the loop stops at
once by returning that error (surfaced as the publish operation's
failure); end-of-stream, by contrast, is swallowed by `ReadFrom` (nil
error), and once the source is exhausted the loop keeps iterating for
ever, reading zero bytes each time. -/
theorem c4_amended :
    (∀ (mime : Str) (send : Str → Option GoError) (e : GoError)
        (chunks : List Str) (sent : List Str) (n : Nat),
      dataStreamLoop mime send (n + 1) ⟨chunks, .err e⟩ sent =
        .stopped e sent) ∧
    (∀ (mime : Str) (send : Str → Option GoError) (n : Nat) (sent : List Str),
      dataStreamLoop mime send n ⟨[], .eof⟩ sent = .running ⟨[], .eof⟩ sent) := by
  exact ⟨fun mime send e chunks sent n => rfl, dataStreamLoop_emptyEof⟩

/-- C5, counterexample: for the requested rate `5/2` (the float `2.5`),
the code computes `time.Second / time.Duration(2.5) = 10^9 / 2 = 500 ms`,
whereas `1/rate` converted to nanoseconds is `400 ms`; and for the rate
`1/2` (the float `0.5`) the code panics with a division by zero instead
of returning any duration. -/
theorem c5_counterexample :
    computeFrameDuration (mkRat 5 2) = .duration 500000000 ∧
    specFrameDurationNs (mkRat 5 2) = 400000000 ∧
    computeFrameDuration (mkRat 5 2) ≠ .duration 400000000 ∧
    computeFrameDuration (mkRat 1 2) = .panicked := by
  have h : mkRat 5 2 = (5 : ℚ) / 2 := by norm_num
  refine ⟨by decide, ?_, by decide, by decide⟩
  rw [specFrameDurationNs, h]
  norm_num

/-- C5, amended: the computation returns no duration when the rate is 0;
otherwise it divides one second (`10^9` ns) by the rate truncated
towards zero to an integer (`time.Duration(fps)`).  For every integral
rate this equals `1/rate` in nanoseconds — in particular rate 25 yields
exactly 40 ms — but a fractional rate is truncated first (rate `5/2`
yields 500 ms, not 400 ms) and a rate of magnitude below 1 panics with a
division by zero (rate `1/2`). -/
theorem c5_amended :
    (∀ n : Int, computeFrameDuration (n : ℚ) =
      if n = 0 then .noDuration else .duration ((1000000000 : Int).tdiv n)) ∧
    computeFrameDuration 25 = .duration 40000000 ∧
    computeFrameDuration 0 = .noDuration ∧
    computeFrameDuration (mkRat 5 2) = .duration 500000000 ∧
    computeFrameDuration (mkRat 1 2) = .panicked := by
  refine ⟨?_, by decide, by decide, by decide, by decide⟩
  intro n
  by_cases hn : n = 0
  · subst hn
    simp [computeFrameDuration]
  · have hq : (n : ℚ) ≠ 0 := Int.cast_ne_zero.mpr hn
    have hd : durationOfRate (n : ℚ) = n := by
      rw [durationOfRate, Rat.num_intCast, Rat.den_intCast]
      simp
    rw [computeFrameDuration]
    rw [if_neg hq]
    simp only [hd, if_neg hn]

/-- C6, counterexample: a chunk whose content is exactly `EXIT`, read
together with a following chunk before EOF, does not stop the loop —
its bytes are forwarded as part of the concatenated message `EXITmore`
and the loop keeps running; and even when the accumulated read is
exactly `EXIT`, `publishReader` stops by returning an error value (the
`finished writing ... stream` error), which is not a normal (nil-error)
termination. -/
theorem c6_counterexample :
    dataStreamLoop MimeTypeDataByte sendOk 2
      ⟨[("EXIT".toList), ("more".toList)], .eof⟩ [] =
      .running ⟨[], .eof⟩ [("EXITmore".toList)] ∧
    publishReaderRun envOk 1 ⟨[("EXIT".toList)], .eof⟩ MimeTypeDataByte 0 =
      .done (.error (.streamFinished MimeTypeDataByte)) ∧
    RunResult.done (.error (.streamFinished MimeTypeDataByte)) ≠
      .done (.ok ()) := by
  decide

/-- C6, amended: the loop acts on the sentinel only when the entire
content accumulated by one `ReadFrom` call (all chunks up to EOF) is
exactly `EXIT`: nothing is forwarded then and the loop stops by
returning the `finished writing ... stream` error value (not a nil
return); and no forwarded message ever has content exactly `EXIT`. -/
theorem c6_amended :
    (∀ (mime : Str) (send : Str → Option GoError) (chunks : List Str)
        (sent : List Str) (n : Nat),
      chunks.flatten = ("EXIT".toList) →
      dataStreamLoop mime send (n + 1) ⟨chunks, .eof⟩ sent =
        .stopped (.streamFinished mime) sent) ∧
    (∀ (mime : Str) (send : Str → Option GoError) (n : Nat) (src : Source),
      ("EXIT".toList) ∉ (dataStreamLoop mime send n src []).sentMessages) := by
  constructor
  · intro mime send chunks sent n hb
    rw [dataStreamLoop]
    simp [readFrom, hb]
  · intro mime send n src
    exact dataStreamLoop_no_exit_message mime send n src [] (by simp)

/-- C6, witness: the amended sentinel behaviour at a concrete input —
the source whose sole read is `EXIT` followed by EOF makes the loop stop
with the `finished writing ... stream` error and forward nothing. -/
theorem c6_witness :
    dataStreamLoop MimeTypeDataByte sendOk 1 ⟨[("EXIT".toList)], .eof⟩ [] =
      .stopped (.streamFinished MimeTypeDataByte) [] :=
  c6_amended.1 MimeTypeDataByte sendOk [("EXIT".toList)] [] 0 (by decide)

/-- Inversion of a successful parse: the mime key is one of the four
accepted keys, and the socket type is `unix` exactly when the address
does not contain `:`, `tcp` when it does. -/
theorem parseSocketFromName_ok (name m t a : Str)
    (h : parseSocketFromName name = .ok (m, t, a)) :
    (m = ("data".toList) ∨ m = ("h264".toList) ∨ m = ("vp8".toList) ∨
      m = ("opus".toList)) ∧
    ((containsSub (":".toList) a = false ∧ t = ("unix".toList)) ∨
     (containsSub (":".toList) a = true ∧ t = ("tcp".toList))) := by
  unfold parseSocketFromName at h
  split at h
  · simp at h
  · dsimp only at h
    split at h
    · simp at h
    · next hcond =>
      split at h
      · simp at h
      · split at h
        · next hcontains =>
          simp only [Except.ok.injEq, Prod.mk.injEq] at h
          obtain ⟨hm, ht, ha⟩ := h
          constructor
          · rw [← hm]
            by_contra hall
            push_neg at hall
            exact hcond ⟨hall.1, hall.2.1, hall.2.2.1, hall.2.2.2⟩
          · left
            exact ⟨ha ▸ hcontains, ht.symm⟩
        · next hcontains =>
          simp only [Except.ok.injEq, Prod.mk.injEq] at h
          obtain ⟨hm, ht, ha⟩ := h
          constructor
          · rw [← hm]
            by_contra hall
            push_neg at hall
            exact hcond ⟨hall.1, hall.2.1, hall.2.2.1, hall.2.2.2⟩
          · right
            refine ⟨?_, ht.symm⟩
            rw [← ha]
            cases hcs : containsSub (":".toList)
              (name.drop (_ + mimeDelimiter.length)) with
            | true => rfl
            | false => exact absurd hcs hcontains

/-- C7: for every specifier containing the delimiter `://`, writing
`off` for the position of its first occurrence: if the text left of the
delimiter is not one of `data`, `h264`, `vp8`, `opus`, parsing fails
with the invalid-mime-type error; and (the mime check coming first in
the parser) if the text left is a valid key and the text right of the
delimiter is empty, parsing fails with the invalid-address error. -/
theorem c7_theorem (name : Str) (off : Nat)
    (hidx : indexOfSub mimeDelimiter name = some off) :
    (¬(name.take off = ("data".toList) ∨ name.take off = ("h264".toList) ∨
        name.take off = ("vp8".toList) ∨ name.take off = ("opus".toList)) →
      parseSocketFromName name = .error (.invalidMime (name.take off))) ∧
    ((name.take off = ("data".toList) ∨ name.take off = ("h264".toList) ∨
        name.take off = ("vp8".toList) ∨ name.take off = ("opus".toList)) →
      name.drop (off + 3) = [] →
      parseSocketFromName name = .error (.emptyAddress name)) := by
  have hlen : mimeDelimiter.length = 3 := rfl
  constructor
  · intro hmime
    push_neg at hmime
    unfold parseSocketFromName
    rw [hidx]
    dsimp only
    rw [if_pos ⟨hmime.1, hmime.2.1, hmime.2.2.1, hmime.2.2.2⟩]
  · intro hmime haddr
    have hcond : ¬(name.take off ≠ ("data".toList) ∧
        name.take off ≠ ("h264".toList) ∧ name.take off ≠ ("vp8".toList) ∧
        name.take off ≠ ("opus".toList)) := by
      rcases hmime with h | h | h | h <;> simp [h]
    unfold parseSocketFromName
    rw [hidx]
    dsimp only
    rw [if_neg hcond, hlen, if_pos haddr]

/-- C7, witness: a specifier with an unsupported key fails with the
invalid-mime-type error, and a valid key with an empty address fails
with the invalid-address error. -/
theorem c7_witness :
    parseSocketFromName ("foo://x".toList) =
      .error (.invalidMime ("foo".toList)) ∧
    parseSocketFromName ("data://".toList) =
      .error (.emptyAddress ("data://".toList)) :=
  ⟨(c7_theorem ("foo://x".toList) 3 (by decide)).1 (by decide),
   (c7_theorem ("data://".toList) 4 (by decide)).2 (by decide) (by decide)⟩

/-- C8: for every successfully parsed socket specifier, the derived
socket type is `tcp` exactly when the address contains `:`, and `unix`
exactly when it does not. -/
theorem c8_theorem (name m t a : Str)
    (h : parseSocketFromName name = .ok (m, t, a)) :
    (containsSub (":".toList) a = true ↔ t = ("tcp".toList)) ∧
    (containsSub (":".toList) a = false ↔ t = ("unix".toList)) := by
  rcases (parseSocketFromName_ok name m t a h).2 with ⟨hc, ht⟩ | ⟨hc, ht⟩ <;>
    subst ht <;> rw [hc] <;> exact by decide

/-- C8, witness: the address `127.0.0.1:1234` yields socket type `tcp`
and the address `/tmp/x.sock` yields socket type `unix`. -/
theorem c8_witness :
    parseSocketFromName ("h264://127.0.0.1:1234".toList) =
      .ok (("h264".toList), ("tcp".toList), ("127.0.0.1:1234".toList)) ∧
    parseSocketFromName ("opus:///tmp/x.sock".toList) =
      .ok (("opus".toList), ("unix".toList), ("/tmp/x.sock".toList)) ∧
    (("tcp".toList) : Str) = ("tcp".toList) ∧
    (("unix".toList) : Str) = ("unix".toList) := by
  refine ⟨by decide, by decide, ?_, ?_⟩
  · exact (c8_theorem ("h264://127.0.0.1:1234".toList) ("h264".toList)
      ("tcp".toList) ("127.0.0.1:1234".toList) (by decide)).1.mp (by decide)
  · exact (c8_theorem ("opus:///tmp/x.sock".toList) ("opus".toList)
      ("unix".toList) ("/tmp/x.sock".toList) (by decide)).2.mp (by decide)

/-- C9: a frame duration is considered (the option block entered) only
when the guard holds and the rate is nonzero: for `publishFile` the file
extension must be `.h264` or `.ivf`, for `publishReader` the resolved
mime must equal-fold to `video/VP8` or `video/H264`; and for every
parser-accepted mime key other than `h264`/`vp8` (that is, `data` and
`opus`), the resolved mime never passes the guard, so no frame duration
is set. -/
theorem c9_theorem :
    (∀ (filename : Str) (fps : ℚ),
      publishFileFrameDuration filename fps ≠ .noDuration →
      ((fileExt filename = (".h264".toList) ∨
        fileExt filename = (".ivf".toList)) ∧ fps ≠ 0)) ∧
    (∀ (mime : Str) (fps : ℚ),
      publishReaderFrameDuration mime fps ≠ .noDuration →
      ((equalFold mime MimeTypeVP8 ∨ equalFold mime MimeTypeH264) ∧
        fps ≠ 0)) ∧
    (∀ (name m t a mimeR : Str) (fps : ℚ),
      parseSocketFromName name = .ok (m, t, a) →
      resolveMime m = .ok mimeR →
      m ≠ ("h264".toList) → m ≠ ("vp8".toList) →
      publishReaderFrameDuration mimeR fps = .noDuration) := by
  refine ⟨?_, ?_, ?_⟩
  · intro filename fps h
    rw [publishFileFrameDuration] at h
    by_cases hext : fileExt filename = (".h264".toList) ∨
        fileExt filename = (".ivf".toList)
    · refine ⟨hext, fun h0 => ?_⟩
      rw [if_pos hext] at h
      exact h (by rw [h0, computeFrameDuration, if_pos rfl])
    · rw [if_neg hext] at h
      exact absurd rfl h
  · intro mime fps h
    rw [publishReaderFrameDuration] at h
    by_cases hfold : equalFold mime MimeTypeVP8 ∨ equalFold mime MimeTypeH264
    · refine ⟨hfold, fun h0 => ?_⟩
      rw [if_pos hfold] at h
      exact h (by rw [h0, computeFrameDuration, if_pos rfl])
    · rw [if_neg hfold] at h
      exact absurd rfl h
  · intro name m t a mimeR fps hp hr h264 hvp8
    rcases (parseSocketFromName_ok name m t a hp).1 with rfl | rfl | rfl | rfl
    · rw [show resolveMime ("data".toList) = .ok MimeTypeDataByte from by decide]
        at hr
      injection hr with hmr
      rw [← hmr, publishReaderFrameDuration, if_neg (by decide)]
    · exact absurd rfl h264
    · exact absurd rfl hvp8
    · rw [show resolveMime ("opus".toList) = .ok MimeTypeOpus from by decide]
        at hr
      injection hr with hmr
      rw [← hmr, publishReaderFrameDuration, if_neg (by decide)]

/-- C9, witness: the resolved mime `video/H264` with rate 25 does enter
the frame-duration block (its guard holds and the rate is nonzero). -/
theorem c9_witness :
    (equalFold MimeTypeH264 MimeTypeVP8 ∨ equalFold MimeTypeH264 MimeTypeH264) ∧
    (25 : ℚ) ≠ 0 :=
  c9_theorem.2.1 MimeTypeH264 25 (by decide)

/-- C10: for every mime key accepted by the specifier parser, the
mime-type dispatch in `publishSocket` maps `data` to `data/byte`,
`h264` to `video/H264`, `vp8` to `video/VP8` and `opus` to
`audio/opus`, and its default unsupported-file-type branch is never
taken. -/
theorem c10_theorem (name m t a : Str)
    (h : parseSocketFromName name = .ok (m, t, a)) :
    ((m = ("data".toList) → resolveMime m = .ok MimeTypeDataByte) ∧
     (m = ("h264".toList) → resolveMime m = .ok MimeTypeH264) ∧
     (m = ("vp8".toList) → resolveMime m = .ok MimeTypeVP8) ∧
     (m = ("opus".toList) → resolveMime m = .ok MimeTypeOpus)) ∧
    resolveMime m ≠ .error .unsupportedFileType := by
  refine ⟨⟨fun hd => by rw [hd]; decide, fun hd => by rw [hd]; decide,
    fun hd => by rw [hd]; decide, fun hd => by rw [hd]; decide⟩, ?_⟩
  rcases (parseSocketFromName_ok name m t a h).1 with rfl | rfl | rfl | rfl <;>
    decide

/-- C10, witness: the parser-accepted key `vp8` (from the specifier
`vp8://h:1`) resolves to `video/VP8` and not to the default
unsupported-file-type error. -/
theorem c10_witness :
    resolveMime ("vp8".toList) = .ok MimeTypeVP8 ∧
    resolveMime ("vp8".toList) ≠ .error .unsupportedFileType := by
  have h := c10_theorem ("vp8://h:1".toList) ("vp8".toList) ("tcp".toList)
    ("h:1".toList) (by decide)
  exact ⟨h.1.2.2.1 rfl, h.2⟩

/-- C2, counterexample: in a run over the two specifiers `foo://sock`
and `opus://s`, the invalid first specifier makes `joinRoom` return its
error at once, and `handlePublish` is never invoked for the sibling
`opus://s` — its resolution and publication are prevented. -/
theorem c2_counterexample :
    joinRoomPublishRun envOk 1 0
      [("foo://sock".toList), ("opus://s".toList)] =
      (.done (.error (.invalidMime ("foo".toList))), [("foo://sock".toList)]) ∧
    ("opus://s".toList) ∉ [("foo://sock".toList)] := by
  decide

/-- C2, amended: specifiers are handled strictly in sequence and a
failure aborts the whole run: if every specifier before `s` is handled
successfully and handling `s` returns an error, the run returns that
error, having invoked `handlePublish` exactly for the specifiers up to
and including `s` — earlier siblings are unaffected, later siblings are
never resolved or published. -/
theorem c2_amended (env : Env) (fuel : Nat) (fps : ℚ)
    (pre : List Str) (s : Str) (post : List Str) (e : GoError)
    (hpre : ∀ p ∈ pre, handlePublishRun env fuel p fps = .done (.ok ()))
    (hs : handlePublishRun env fuel s fps = .done (.error e)) :
    joinRoomPublishRun env fuel fps (pre ++ s :: post) =
      (.done (.error e), pre ++ [s]) := by
  revert hpre
  induction pre with
  | nil =>
    intro _
    rw [List.nil_append]
    rw [joinRoomPublishRun, hs]
    rfl
  | cons p pre ih =>
    intro hpre
    have hp := hpre p (List.mem_cons_self p pre)
    rw [List.cons_append, joinRoomPublishRun, hp]
    dsimp only
    rw [ih (fun q hq => hpre q (List.mem_cons_of_mem p hq))]
    rfl

/-- C2, witness: with every external call succeeding, the run over
`a.ogg`, `foo://x`, `data://z` publishes the file `a.ogg`, fails on
`foo://x` with the invalid-mime-type error, and never reaches
`data://z`. -/
theorem c2_witness :
    joinRoomPublishRun envOk 1 0
      [("a.ogg".toList), ("foo://x".toList), ("data://z".toList)] =
      (.done (.error (.invalidMime ("foo".toList))),
        [("a.ogg".toList), ("foo://x".toList)]) :=
  c2_amended envOk 1 0 [("a.ogg".toList)] ("foo://x".toList)
    [("data://z".toList)] (.invalidMime ("foo".toList)) (by decide) (by decide)
